import Mathlib

/-!
Verification of the claude-pilot worker daemon against its design specification.

This development shallowly embeds the components of the worker daemon that the
checked claims are about:

* the plan-scoped context queries of `ObservationCompiler.ts`
  (`queryObservationsExcludingOtherPlans`, `prepareSummariesForTimeline`,
  `buildTimeline`);
* the plan file routes of `PlanRoutes` (`handleGetPlanContent`,
  `handleDeletePlan`) together with a model of Node's POSIX path resolution;
* the per-session queue iterators of `SessionQueueProcessor`
  (`createIterator`, `createBatchIterator`), driven by an explicit list of
  wait-loop events;
* the daemon supervisor `ensureWorkerDaemon`, instrumented with an explicit
  call log for its injected dependencies;
* the retention scheduler (`startRetentionScheduler`,
  `stopRetentionScheduler`) over an explicit timer-table state;
* the database-open error handling of `ContextBuilder.ts`
  (`initializeDatabase`, `generateContext`);
* the plan association store (`associatePlan`, `getPlanForSession`).

Database tables are embedded as lists of typed rows in insertion order, SQL
queries as list combinators, JavaScript's stable `Array.prototype.sort` as a
stable insertion sort, and asynchronous wait points as explicit event lists.
-/

/-! ## Stable sorting

`Array.prototype.sort` with a numeric comparator is a stable sort.  We model
it with a stable insertion sort parameterised by a strict "must come before"
test `lt`: an element is inserted after every already-placed element that is
strictly before it, so elements that compare equal keep their original
relative order, exactly as a stable sort does. -/

def insertSorted {α : Type} (lt : α → α → Bool) (x : α) : List α → List α
  | [] => [x]
  | y :: ys => if lt y x then y :: insertSorted lt x ys else x :: y :: ys

def sortStable {α : Type} (lt : α → α → Bool) : List α → List α
  | [] => []
  | x :: xs => insertSorted lt x (sortStable lt xs)

theorem insertSorted_perm {α : Type} (lt : α → α → Bool) (x : α) (l : List α) :
    List.Perm (insertSorted lt x l) (x :: l) := by
  induction l with
  | nil => simp [insertSorted]
  | cons y ys ih =>
    simp only [insertSorted]
    by_cases h : lt y x = true
    · simp only [h, if_pos]
      exact List.Perm.trans (List.Perm.cons y ih) (List.Perm.swap x y ys)
    · simp only [h]
      simp

theorem sortStable_perm {α : Type} (lt : α → α → Bool) (l : List α) :
    List.Perm (sortStable lt l) l := by
  induction l with
  | nil => simp [sortStable]
  | cons x xs ih =>
    exact List.Perm.trans (insertSorted_perm lt x (sortStable lt xs)) (List.Perm.cons x ih)

theorem mem_sortStable {α : Type} (lt : α → α → Bool) (l : List α) (a : α) :
    a ∈ sortStable lt l ↔ a ∈ l :=
  (sortStable_perm lt l).mem_iff

theorem length_sortStable {α : Type} (lt : α → α → Bool) (l : List α) :
    (sortStable lt l).length = l.length :=
  (sortStable_perm lt l).length_eq

theorem insertSorted_pairwise {α : Type} (lt : α → α → Bool)
    (hasym : ∀ a b, lt a b = true → lt b a = false)
    (hnegtrans : ∀ a b c, lt b a = false → lt c b = false → lt c a = false)
    (x : α) (l : List α) (hl : l.Pairwise (fun a b => lt b a = false)) :
    (insertSorted lt x l).Pairwise (fun a b => lt b a = false) := by
  induction l with
  | nil => simp [insertSorted]
  | cons y ys ih =>
    rcases List.pairwise_cons.mp hl with ⟨hy, hys⟩
    simp only [insertSorted]
    by_cases h : lt y x = true
    · rw [if_pos h]
      refine List.pairwise_cons.mpr ⟨?_, ih hys⟩
      intro z hz
      rcases List.mem_cons.mp ((insertSorted_perm lt x ys).mem_iff.mp hz) with hzx | hzys
      · rw [hzx]; exact hasym y x h
      · exact hy z hzys
    · have h' : lt y x = false := by simpa using h
      rw [if_neg h]
      refine List.pairwise_cons.mpr ⟨?_, hl⟩
      intro z hz
      rcases List.mem_cons.mp hz with hzy | hzys
      · subst hzy; exact h'
      · exact hnegtrans x y z h' (hy z hzys)

theorem sortStable_pairwise {α : Type} (lt : α → α → Bool)
    (hasym : ∀ a b, lt a b = true → lt b a = false)
    (hnegtrans : ∀ a b c, lt b a = false → lt c b = false → lt c a = false)
    (l : List α) :
    (sortStable lt l).Pairwise (fun a b => lt b a = false) := by
  induction l with
  | nil => simp [sortStable]
  | cons x xs ih => exact insertSorted_pairwise lt hasym hnegtrans x (sortStable lt xs) ih

/-! ## Data model

Rows of the SQLite tables used by the context engine and the plan store,
restricted to the columns that the verified operations read. -/

structure Observation where
  id : Nat
  memory_session_id : String
  project : String
  type : String
  title : String
  concepts : List String
  created_at_epoch : Nat
deriving DecidableEq, Repr

structure SdkSession where
  id : Nat
  memory_session_id : String
deriving DecidableEq, Repr

structure SessionPlanRow where
  session_db_id : Nat
  plan_path : String
  plan_status : String
  created_at : String
  updated_at : String
deriving DecidableEq, Repr

structure SessionSummary where
  id : Nat
  memory_session_id : String
  project : String
  request : String
  created_at : String
  created_at_epoch : Nat
deriving DecidableEq, Repr

structure Db where
  observations : List Observation
  sdk_sessions : List SdkSession
  session_plans : List SessionPlanRow
  session_summaries : List SessionSummary
deriving DecidableEq, Repr

/-- Configuration fields of `ContextConfig` read by the observation queries. -/
structure ContextConfig where
  observationTypes : List String
  observationConcepts : List String
  totalObservationCount : Nat
deriving DecidableEq, Repr

/-! ## Plan-scoped observation query (`ObservationCompiler.ts`)

`queryObservationsExcludingOtherPlans` runs

```
SELECT o.* FROM observations o
LEFT JOIN sdk_sessions s ON o.memory_session_id = s.memory_session_id
LEFT JOIN session_plans sp ON s.id = sp.session_db_id
WHERE o.project = ? AND o.type IN (...) AND EXISTS (json_each concepts ...)
  AND (sp.plan_path IS NULL OR sp.plan_path = ?)
ORDER BY o.created_at_epoch DESC LIMIT ?
```

The two LEFT JOINs are embedded literally: for one observation row they
produce one joined row per matching session/plan pair, padding with NULL
(`Option.none`) when a side has no match. -/

def joinedPlanPaths (db : Db) (o : Observation) : List (Option String) :=
  let ss := db.sdk_sessions.filter (fun s => s.memory_session_id == o.memory_session_id)
  if ss.isEmpty then [none]
  else
    ss.flatMap (fun s =>
      let ps := db.session_plans.filter (fun sp => sp.session_db_id == s.id)
      if ps.isEmpty then [none] else ps.map (fun sp => some sp.plan_path))

/-- The WHERE clause of `queryObservationsExcludingOtherPlans`, applied to one
joined row (`pp` is the joined `sp.plan_path` column, NULL-padded). -/
def obsWherePasses (cfg : ContextConfig) (project planPath : String) (o : Observation)
    (pp : Option String) : Bool :=
  o.project == project &&
  cfg.observationTypes.contains o.type &&
  o.concepts.any (fun c => cfg.observationConcepts.contains c) &&
  (pp == none || pp == some planPath)

def queryObservationsExcludingOtherPlans (db : Db) (project : String) (cfg : ContextConfig)
    (planPath : String) : List Observation :=
  let rows := db.observations.flatMap (fun o =>
    (joinedPlanPaths db o).filterMap (fun pp =>
      if obsWherePasses cfg project planPath o pp then some o else none))
  (sortStable (fun a b => decide (b.created_at_epoch < a.created_at_epoch)) rows).take
    cfg.totalObservationCount

/-- The plan associated with the owning session of an observation: the session
row whose `memory_session_id` matches, then its `session_plans` row, if any.
This is the claim-side notion used to state what the query should return. -/
def sessionPlanPath (db : Db) (o : Observation) : Option String :=
  match db.sdk_sessions.find? (fun s => s.memory_session_id == o.memory_session_id) with
  | none => none
  | some s =>
    match db.session_plans.find? (fun sp => sp.session_db_id == s.id) with
    | none => none
    | some sp => some sp.plan_path

/-- Claim-side visibility predicate: the observation belongs to the project,
passes the configured type and concept filters, and its owning session is
either associated with the queried plan or has no plan association. -/
def observationVisibleForPlan (db : Db) (cfg : ContextConfig) (project planPath : String)
    (o : Observation) : Bool :=
  o.project == project &&
  cfg.observationTypes.contains o.type &&
  o.concepts.any (fun c => cfg.observationConcepts.contains c) &&
  (sessionPlanPath db o == none || sessionPlanPath db o == some planPath)

theorem filter_key_of_nodup {α κ : Type} [DecidableEq κ] (key : α → κ) (k : κ)
    (l : List α) (h : (l.map key).Nodup) :
    l.filter (fun x => key x == k) =
      (match l.find? (fun x => key x == k) with
       | none => []
       | some x => [x]) := by
  induction l with
  | nil => rfl
  | cons y ys ih =>
    simp only [List.map_cons, List.nodup_cons] at h
    obtain ⟨hy, hys⟩ := h
    by_cases hk : key y = k
    · have hb : (key y == k) = true := by simp [hk]
      have hnil : ys.filter (fun x => key x == k) = [] := by
        refine List.filter_eq_nil_iff.mpr ?_
        intro a ha hc
        have : key a = k := by simpa using hc
        exact hy (List.mem_map.mpr ⟨a, ha, by rw [this, hk]⟩)
      simp [List.filter_cons, List.find?_cons, hb, hnil]
    · have hb : (key y == k) = false := by simp [hk]
      simp [List.filter_cons, List.find?_cons, hb, ih hys]

theorem flatMap_if_singleton {α : Type} (p : α → Bool) (l : List α) :
    (l.flatMap fun o => if p o then [o] else []) = l.filter p := by
  induction l with
  | nil => rfl
  | cons y ys ih =>
    by_cases h : p y = true <;> simp [h, ih, List.filter_cons]

theorem joinedPlanPaths_eq (db : Db) (o : Observation)
    (hs : (db.sdk_sessions.map SdkSession.memory_session_id).Nodup)
    (hp : (db.session_plans.map SessionPlanRow.session_db_id).Nodup) :
    joinedPlanPaths db o = [sessionPlanPath db o] := by
  unfold joinedPlanPaths sessionPlanPath
  rw [filter_key_of_nodup (fun s => SdkSession.memory_session_id s) o.memory_session_id
        db.sdk_sessions hs]
  cases hfind : db.sdk_sessions.find? (fun s => s.memory_session_id == o.memory_session_id) with
  | none => simp
  | some s =>
    simp only [List.isEmpty_cons, List.flatMap_cons, List.flatMap_nil]
    rw [filter_key_of_nodup (fun sp => SessionPlanRow.session_db_id sp) s.id
          db.session_plans hp]
    cases hfind2 : db.session_plans.find? (fun sp => sp.session_db_id == s.id) with
    | none => simp
    | some sp => simp

/-- C1: for every project and plan path, under the table key-uniqueness
invariants (`sdk_sessions.memory_session_id` and the `session_plans` primary
key) and provided the qualifying rows fit within the configured limit,
`queryObservationsExcludingOtherPlans` returns exactly (as a multiset) the
observations of the project that pass the configured type and concept filters
and whose owning session is associated with the queried plan or has no plan
association. -/
theorem c1_queryObservationsExcludingOtherPlans_exact (db : Db) (project : String)
    (cfg : ContextConfig) (planPath : String)
    (hs : (db.sdk_sessions.map SdkSession.memory_session_id).Nodup)
    (hp : (db.session_plans.map SessionPlanRow.session_db_id).Nodup)
    (hlim : (db.observations.filter (observationVisibleForPlan db cfg project planPath)).length
      ≤ cfg.totalObservationCount) :
    List.Perm (queryObservationsExcludingOtherPlans db project cfg planPath)
      (db.observations.filter (observationVisibleForPlan db cfg project planPath)) := by
  unfold queryObservationsExcludingOtherPlans
  have hrows : (db.observations.flatMap (fun o =>
      (joinedPlanPaths db o).filterMap (fun pp =>
        if obsWherePasses cfg project planPath o pp then some o else none)))
      = db.observations.filter (observationVisibleForPlan db cfg project planPath) := by
    have h1 : ∀ o ∈ db.observations,
        ((joinedPlanPaths db o).filterMap (fun pp =>
          if obsWherePasses cfg project planPath o pp then some o else none))
        = if observationVisibleForPlan db cfg project planPath o then [o] else [] := by
      intro o _
      rw [joinedPlanPaths_eq db o hs hp]
      have hvis : observationVisibleForPlan db cfg project planPath o
          = obsWherePasses cfg project planPath o (sessionPlanPath db o) := rfl
      rw [hvis]
      by_cases hpass : obsWherePasses cfg project planPath o (sessionPlanPath db o) = true <;>
        simp [hpass]
    rw [List.flatMap_congr h1]
    exact flatMap_if_singleton _ _
  rw [hrows, List.take_of_length_le (by rw [length_sortStable]; exact hlim)]
  exact sortStable_perm _ _

/-- Database instance mirroring the cross-session isolation test: three
sessions, two of them associated to plans, one quick-mode session, one
observation each. -/
def dbC1 : Db where
  observations :=
    [⟨1, "memory-a", "test-project", "discovery", "obs-from-plan-a", ["general"], 1000⟩,
     ⟨2, "memory-b", "test-project", "discovery", "obs-from-plan-b", ["general"], 2000⟩,
     ⟨3, "memory-c", "test-project", "discovery", "obs-from-quick-mode", ["general"], 3000⟩]
  sdk_sessions := [⟨1, "memory-a"⟩, ⟨2, "memory-b"⟩, ⟨3, "memory-c"⟩]
  session_plans :=
    [⟨1, "docs/plans/plan-a.md", "PENDING", "t0", "t0"⟩,
     ⟨2, "docs/plans/plan-b.md", "PENDING", "t0", "t0"⟩]
  session_summaries := []

def cfgC1 : ContextConfig where
  observationTypes := ["discovery", "bugfix", "feature", "change"]
  observationConcepts := ["general"]
  totalObservationCount := 50

theorem c1_witness :
    List.Perm (queryObservationsExcludingOtherPlans dbC1 ("test-project") cfgC1
        ("docs/plans/plan-a.md"))
      (dbC1.observations.filter
        (observationVisibleForPlan dbC1 cfgC1 ("test-project") ("docs/plans/plan-a.md"))) :=
  c1_queryObservationsExcludingOtherPlans_exact dbC1 ("test-project") cfgC1
    ("docs/plans/plan-a.md") (by decide) (by decide) (by decide)

/-! ## Timeline construction (`ObservationCompiler.ts`)

`prepareSummariesForTimeline` decorates each displayed summary with a display
epoch (the epoch of the immediately older summary, or its own when it is the
most recent / the older one does not exist), and `buildTimeline` merges
observations and prepared summaries and sorts them with JavaScript's stable
`Array.prototype.sort` using the comparator `aEpoch - bEpoch`. -/

structure SummaryTimelineItem extends SessionSummary where
  displayEpoch : Nat
  displayTime : String
  shouldShowLink : Bool
deriving DecidableEq, Repr

def prepareSummariesForTimeline (displaySummaries allSummaries : List SessionSummary) :
    List SummaryTimelineItem :=
  let mostRecentSummaryId := allSummaries.head?.map SessionSummary.id
  displaySummaries.enum.map (fun p =>
    let i := p.1
    let summary := p.2
    let olderSummary := if i = 0 then none else allSummaries[i + 1]?
    { toSessionSummary := summary
      displayEpoch :=
        match olderSummary with
        | some o => o.created_at_epoch
        | none => summary.created_at_epoch
      displayTime :=
        match olderSummary with
        | some o => o.created_at
        | none => summary.created_at
      shouldShowLink := !(some summary.id == mostRecentSummaryId) })

inductive TimelineItem where
  | observation (data : Observation)
  | summary (data : SummaryTimelineItem)
deriving DecidableEq, Repr

def timelineDisplayEpoch : TimelineItem → Nat
  | .observation o => o.created_at_epoch
  | .summary s => s.displayEpoch

def buildTimeline (observations : List Observation) (summaries : List SummaryTimelineItem) :
    List TimelineItem :=
  sortStable (fun a b => decide (timelineDisplayEpoch a < timelineDisplayEpoch b))
    (observations.map TimelineItem.observation ++ summaries.map TimelineItem.summary)

def timelineItemId : TimelineItem → Nat
  | .observation o => o.id
  | .summary s => s.id

/-- The ordering asserted by the claim: ascending display epoch with ties
broken by ascending id. -/
def timelineOrderedByEpochThenId (l : List TimelineItem) : Prop :=
  l.Pairwise (fun a b => timelineDisplayEpoch a < timelineDisplayEpoch b ∨
    (timelineDisplayEpoch a = timelineDisplayEpoch b ∧ timelineItemId a ≤ timelineItemId b))

def obsTieA : Observation := ⟨1, "memory-a", "proj", "discovery", "first", [], 100⟩

def obsTieB : Observation := ⟨2, "memory-a", "proj", "discovery", "second", [], 100⟩

/-- C7 counterexample: two observations share the display epoch 100 and are
supplied in descending-id order; `buildTimeline` keeps the input order (the
sort is stable and compares only epochs), so the result is not ordered by the
claimed id tiebreak. -/
theorem c7_counterexample :
    buildTimeline [obsTieB, obsTieA] []
        = [TimelineItem.observation obsTieB, TimelineItem.observation obsTieA]
      ∧ ¬ timelineOrderedByEpochThenId (buildTimeline [obsTieB, obsTieA] []) := by
  constructor
  · rfl
  · unfold timelineOrderedByEpochThenId
    decide

theorem filter_insertSorted_of_ne {α : Type} (lt : α → α → Bool) (p : α → Bool) (x : α)
    (l : List α) (hx : p x = false) :
    (insertSorted lt x l).filter p = l.filter p := by
  induction l with
  | nil => simp [insertSorted, hx]
  | cons y ys ih =>
    simp only [insertSorted]
    by_cases h : lt y x = true
    · rw [if_pos h]
      simp [List.filter_cons, ih]
    · rw [if_neg h]
      simp [List.filter_cons, hx]

theorem filter_insertSorted_of_eq {α : Type} (lt : α → α → Bool) (p : α → Bool) (x : α)
    (l : List α) (hx : p x = true) (hbefore : ∀ y, lt y x = true → p y = false) :
    (insertSorted lt x l).filter p = x :: l.filter p := by
  induction l with
  | nil => simp [insertSorted, hx]
  | cons y ys ih =>
    simp only [insertSorted]
    by_cases h : lt y x = true
    · rw [if_pos h]
      have hy := hbefore y h
      simp [List.filter_cons, hy, ih]
    · rw [if_neg h]
      simp [List.filter_cons, hx]

/-- Stability of `sortStable` for a numeric sort key: for every key value the
subsequence of elements carrying that key is unchanged by the sort. -/
theorem sortStable_filter_stable {α : Type} (k : α → Nat) (e : Nat) (l : List α) :
    (sortStable (fun a b => decide (k a < k b)) l).filter (fun y => decide (k y = e))
      = l.filter (fun y => decide (k y = e)) := by
  induction l with
  | nil => rfl
  | cons x xs ih =>
    simp only [sortStable]
    by_cases hx : k x = e
    · rw [filter_insertSorted_of_eq _ _ _ _ (by simp [hx]) ?_]
      · rw [ih]
        simp [List.filter_cons, hx]
      · intro y hy
        simp at hy ⊢
        omega
    · rw [filter_insertSorted_of_ne _ _ _ _ (by simp [hx])]
      rw [ih]
      simp [List.filter_cons, hx]

/-- C7 (amended): `buildTimeline` returns a permutation of the merged
observation and summary items that is sorted ascending by display epoch;
items with equal display epochs keep the merge's input order — for every
epoch value, the subsequence of items carrying that display epoch equals the
corresponding subsequence of the merged input (stable sort: observations
before summaries, each in input order) — rather than being reordered by
id. -/
theorem c7_buildTimeline_stable_sorted_perm (observations : List Observation)
    (summaries : List SummaryTimelineItem) :
    List.Perm (buildTimeline observations summaries)
        (observations.map TimelineItem.observation ++ summaries.map TimelineItem.summary)
      ∧ (buildTimeline observations summaries).Pairwise
        (fun a b => timelineDisplayEpoch a ≤ timelineDisplayEpoch b)
      ∧ ∀ e : Nat,
          (buildTimeline observations summaries).filter
              (fun x => timelineDisplayEpoch x = e)
            = (observations.map TimelineItem.observation
                ++ summaries.map TimelineItem.summary).filter
                (fun x => timelineDisplayEpoch x = e) := by
  refine ⟨?_, ?_, ?_⟩
  · exact sortStable_perm _ _
  · have hp := sortStable_pairwise
      (fun a b => decide (timelineDisplayEpoch a < timelineDisplayEpoch b))
      (by intro a b h; simp at h ⊢; omega)
      (by intro a b c h1 h2; simp at h1 h2 ⊢; omega)
      (observations.map TimelineItem.observation ++ summaries.map TimelineItem.summary)
    refine List.Pairwise.imp ?_ hp
    intro a b h
    simp at h
    omega
  · intro e
    exact sortStable_filter_stable timelineDisplayEpoch e
      (observations.map TimelineItem.observation ++ summaries.map TimelineItem.summary)

/-! ## Per-session message queue (`SessionQueueProcessor`)

The durable queue is a list of rows in insertion order (ids are assigned
monotonically by `enqueue`).  `SessionQueueProcessor.createIterator` and
`createBatchIterator` are loops: claim from the store; if rows came back,
yield them; otherwise wait for a "message" event, an abort, or the idle
timer, whichever fires first.  The wait outcomes are modelled as an explicit
list of events consumed in order; an exhausted event list means the iterator
is still parked waiting. -/

structure QMsg where
  id : Nat
  session_id : Nat
  payload : String
  created_at_epoch : Nat
deriving DecidableEq, Repr

/-- Modelled from the spec: `PendingMessageStore.enqueue` (the store's source
file is not in the repository snapshot).  Spec §4.2: producers append; `id`
is monotonic. -/
def enqueue (q : List QMsg) (sessionDbId : Nat) (payload : String) (epoch : Nat) : List QMsg :=
  q ++ [⟨q.length + 1, sessionDbId, payload, epoch⟩]

/-- Modelled from the spec: `PendingMessageStore.claimAndDelete` (source file
not in the repository snapshot).  Spec §4.2: in one transaction, select the
oldest row for that session (FIFO by id), delete it, return it. -/
def claimAndDelete (q : List QMsg) (sessionDbId : Nat) : Option QMsg × List QMsg :=
  match q with
  | [] => (none, [])
  | m :: rest =>
    if m.session_id == sessionDbId then (some m, rest)
    else
      let r := claimAndDelete rest sessionDbId
      (r.1, m :: r.2)

/-- Modelled from the spec: `PendingMessageStore.claimAndDeleteBatch` (source
file not in the repository snapshot).  Spec §4.2: same as `claimAndDelete`,
bounded by `limit`. -/
def claimAndDeleteBatch (q : List QMsg) (sessionDbId : Nat) : Nat → List QMsg × List QMsg
  | 0 => ([], q)
  | Nat.succ n =>
    match claimAndDelete q sessionDbId with
    | (none, q1) => ([], q1)
    | (some m, q1) =>
      let r := claimAndDeleteBatch q1 sessionDbId n
      (m :: r.1, r.2)

/-- Outcome of one `waitForMessage` suspension, as observed by the loop:
a "message" event fired, the abort signal fired, or the idle timer fired
(`elapsed` records whether `now - lastActivityTime >= idleTimeoutMs` held at
that moment). -/
inductive WaitEvent where
  | notify
  | abort
  | idleFire (elapsed : Bool)
deriving DecidableEq, Repr

inductive IterOutcome where
  | parked
  | cancelled
  | idleExited
deriving DecidableEq, Repr

structure IterRunResult where
  items : List QMsg
  queue : List QMsg
  outcome : IterOutcome
  onIdleInvoked : Bool
deriving DecidableEq, Repr

structure BatchRunResult where
  batches : List (List QMsg)
  queue : List QMsg
  outcome : IterOutcome
  onIdleInvoked : Bool
deriving DecidableEq, Repr

/-- One run of `createIterator`'s loop.  `hasIdleCallback` records whether an
`onIdleTimeout` callback was supplied; `onIdleInvoked` in the result records
whether it was called.  `fuel` bounds the number of loop iterations; each
iteration either yields a claimed row or consumes one wait event, so the
wrapper below always supplies enough. -/
def runIterator (sessionDbId : Nat) (hasIdleCallback : Bool) :
    Nat → List QMsg → List WaitEvent → List QMsg → IterRunResult
  | 0, q, _, acc => ⟨acc, q, .parked, false⟩
  | Nat.succ n, q, evs, acc =>
    match claimAndDelete q sessionDbId with
    | (some m, q1) => runIterator sessionDbId hasIdleCallback n q1 evs (acc ++ [m])
    | (none, q1) =>
      match evs with
      | [] => ⟨acc, q1, .parked, false⟩
      | .notify :: rest => runIterator sessionDbId hasIdleCallback n q1 rest acc
      | .abort :: _ => ⟨acc, q1, .cancelled, false⟩
      | .idleFire true :: _ => ⟨acc, q1, .idleExited, hasIdleCallback⟩
      | .idleFire false :: rest => runIterator sessionDbId hasIdleCallback n q1 rest acc

/-- One run of `createBatchIterator`'s loop, in the same event model. -/
def runBatchIterator (sessionDbId : Nat) (maxBatchSize : Nat) (hasIdleCallback : Bool) :
    Nat → List QMsg → List WaitEvent → List (List QMsg) → BatchRunResult
  | 0, q, _, acc => ⟨acc, q, .parked, false⟩
  | Nat.succ n, q, evs, acc =>
    match claimAndDeleteBatch q sessionDbId maxBatchSize with
    | ([], q1) =>
      match evs with
      | [] => ⟨acc, q1, .parked, false⟩
      | .notify :: rest => runBatchIterator sessionDbId maxBatchSize hasIdleCallback n q1 rest acc
      | .abort :: _ => ⟨acc, q1, .cancelled, false⟩
      | .idleFire true :: _ => ⟨acc, q1, .idleExited, hasIdleCallback⟩
      | .idleFire false :: rest =>
        runBatchIterator sessionDbId maxBatchSize hasIdleCallback n q1 rest acc
    | (m :: ms, q1) =>
      runBatchIterator sessionDbId maxBatchSize hasIdleCallback n q1 evs (acc ++ [m :: ms])

def iterate (q : List QMsg) (sessionDbId : Nat) (evs : List WaitEvent)
    (hasIdleCallback : Bool) : IterRunResult :=
  runIterator sessionDbId hasIdleCallback (q.length + evs.length + 1) q evs []

def batchIterate (q : List QMsg) (sessionDbId : Nat) (maxBatchSize : Nat)
    (evs : List WaitEvent) (hasIdleCallback : Bool) : BatchRunResult :=
  runBatchIterator sessionDbId maxBatchSize hasIdleCallback (q.length + evs.length + 1) q evs []

theorem claimAndDelete_of_no_match (sessionDbId : Nat) :
    ∀ q : List QMsg, q.filter (fun m => m.session_id == sessionDbId) = [] →
      claimAndDelete q sessionDbId = (none, q) := by
  intro q
  induction q with
  | nil => intro _; rfl
  | cons m rest ih =>
    intro h
    simp only [List.filter_cons] at h
    by_cases hm : (m.session_id == sessionDbId) = true
    · simp [hm] at h
    · have hm' : (m.session_id == sessionDbId) = false := by simpa using hm
      simp only [hm', Bool.false_eq_true, if_false] at h
      simp [claimAndDelete, hm', ih h]

theorem claimAndDeleteBatch_of_no_match (sessionDbId : Nat) (q : List QMsg)
    (h : q.filter (fun m => m.session_id == sessionDbId) = []) :
    ∀ n, claimAndDeleteBatch q sessionDbId n = ([], q) := by
  intro n
  cases n with
  | zero => rfl
  | succ n => simp [claimAndDeleteBatch, claimAndDelete_of_no_match sessionDbId q h]

/-- C3: enqueueing five messages for session 42 and draining with a batch
iterator of `maxBatchSize = 2` yields the batches `[2, 2, 1]` with contents in
enqueue (FIFO) order, after which the iterator parks waiting for a
notification (event list exhausted, outcome `parked`); if the token is
cancelled while parked, the iterator returns (`cancelled`) having yielded the
same batches and nothing further. -/
theorem c3_batch_drain (p1 p2 p3 p4 p5 : String) (t1 t2 t3 t4 t5 : Nat)
    (hasIdleCallback : Bool) :
    (batchIterate
        (enqueue (enqueue (enqueue (enqueue (enqueue [] 42 p1 t1) 42 p2 t2) 42 p3 t3)
          42 p4 t4) 42 p5 t5) 42 2 [] hasIdleCallback
      = ⟨[[⟨1, 42, p1, t1⟩, ⟨2, 42, p2, t2⟩], [⟨3, 42, p3, t3⟩, ⟨4, 42, p4, t4⟩],
          [⟨5, 42, p5, t5⟩]], [], IterOutcome.parked, false⟩)
    ∧ (batchIterate
        (enqueue (enqueue (enqueue (enqueue (enqueue [] 42 p1 t1) 42 p2 t2) 42 p3 t3)
          42 p4 t4) 42 p5 t5) 42 2 [WaitEvent.abort] hasIdleCallback
      = ⟨[[⟨1, 42, p1, t1⟩, ⟨2, 42, p2, t2⟩], [⟨3, 42, p3, t3⟩, ⟨4, 42, p4, t4⟩],
          [⟨5, 42, p5, t5⟩]], [], IterOutcome.cancelled, false⟩) :=
  ⟨rfl, rfl⟩

/-- C5: in either iterator mode, when a claim attempt finds no rows for the
session and the next wait outcome is the idle timer with the idle threshold
genuinely elapsed (no notification and no cancellation arrived first), the
iterator invokes the `onIdleTimeout` callback exactly when one was supplied
and returns, yielding no items. -/
theorem c5_idle_timeout_exit (q : List QMsg) (sessionDbId maxBatchSize : Nat)
    (rest : List WaitEvent) (hasIdleCallback : Bool)
    (hq : q.filter (fun m => m.session_id == sessionDbId) = []) :
    iterate q sessionDbId (WaitEvent.idleFire true :: rest) hasIdleCallback
        = ⟨[], q, IterOutcome.idleExited, hasIdleCallback⟩
      ∧ batchIterate q sessionDbId maxBatchSize (WaitEvent.idleFire true :: rest) hasIdleCallback
        = ⟨[], q, IterOutcome.idleExited, hasIdleCallback⟩ := by
  constructor
  · simp [iterate, runIterator, claimAndDelete_of_no_match sessionDbId q hq]
  · simp [batchIterate, runBatchIterator, claimAndDeleteBatch_of_no_match sessionDbId q hq]

theorem c5_witness :
    iterate [⟨1, 7, "other-session-msg", 0⟩] 42 [WaitEvent.idleFire true] true
        = ⟨[], [⟨1, 7, "other-session-msg", 0⟩], IterOutcome.idleExited, true⟩
      ∧ batchIterate [⟨1, 7, "other-session-msg", 0⟩] 42 10 [WaitEvent.idleFire true] true
        = ⟨[], [⟨1, 7, "other-session-msg", 0⟩], IterOutcome.idleExited, true⟩ :=
  c5_idle_timeout_exit [⟨1, 7, "other-session-msg", 0⟩] 42 10 [] true (by decide)

/-! ## Daemon supervisor (`EnsureWorkerDaemon.ts`)

`ensureWorkerDaemon` is written against an injected dependency record and is
embedded as a pure function of that record, additionally returning the
ordered log of dependency invocations so that frame conditions ("does not
invoke X") can be stated.  Dependencies are pure functions of their
arguments; the calls the claims distinguish differ in their arguments
(initial health probe uses timeout 1000, the later ones use the platform
timeout of 15000 / 30000 ms). -/

/-- Result of `checkVersionMatch`.  The source field `matches` is spelled
`versionMatches` here because `matches` is a reserved word in Lean. -/
structure VersionCheckResult where
  versionMatches : Bool
  pluginVersion : String
  workerVersion : Option String
deriving DecidableEq, Repr

structure WorkerDeps where
  waitForHealth : Nat → Nat → Bool
  checkVersionMatch : Nat → VersionCheckResult
  httpShutdown : Nat → Bool
  waitForPortFree : Nat → Nat → Bool
  isPortInUse : Nat → Bool
  spawnDaemon : String → Nat → Option Nat
  getPlatformTimeout : Nat → Nat

inductive DepCall where
  | waitForHealth (port timeout : Nat)
  | checkVersionMatch (port : Nat)
  | httpShutdown (port : Nat)
  | waitForPortFree (port timeout : Nat)
  | isPortInUse (port : Nat)
  | spawnDaemon (scriptPath : String) (port : Nat)
  | writePidFile (pid port : Nat)
  | removePidFile
deriving DecidableEq, Repr

structure EnsureResult where
  ready : Bool
  error : Option String
deriving DecidableEq, Repr

/-- Cold-start tail of `ensureWorkerDaemon`: spawn, write the pid file, wait
for health with the 30 s platform timeout, removing the pid file on health
timeout. -/
def coldStartPhase (port : Nat) (scriptPath : String) (deps : WorkerDeps)
    (log : List DepCall) : EnsureResult × List DepCall :=
  let log := log ++ [DepCall.spawnDaemon scriptPath port]
  match deps.spawnDaemon scriptPath port with
  | none => (⟨false, some ("Failed to spawn worker daemon")⟩, log)
  | some pid =>
    let log := log ++ [DepCall.writePidFile pid port]
    let t := deps.getPlatformTimeout 30000
    let log := log ++ [DepCall.waitForHealth port t]
    if deps.waitForHealth port t then (⟨true, none⟩, log)
    else (⟨false, some ("Worker failed to start (health check timeout)")⟩,
      log ++ [DepCall.removePidFile])

/-- Port-contention check of `ensureWorkerDaemon`, falling through to the
cold start when the port is free. -/
def portPhase (port : Nat) (scriptPath : String) (deps : WorkerDeps)
    (log : List DepCall) : EnsureResult × List DepCall :=
  let log := log ++ [DepCall.isPortInUse port]
  if deps.isPortInUse port then
    let t := deps.getPlatformTimeout 15000
    let log := log ++ [DepCall.waitForHealth port t]
    if deps.waitForHealth port t then (⟨true, none⟩, log)
    else (⟨false, some ("Port in use but worker not responding")⟩, log)
  else coldStartPhase port scriptPath deps log

def ensureWorkerDaemon (port : Nat) (scriptPath : String) (deps : WorkerDeps) :
    EnsureResult × List DepCall :=
  let log := [DepCall.waitForHealth port 1000]
  if deps.waitForHealth port 1000 then
    let log := log ++ [DepCall.checkVersionMatch port]
    if (deps.checkVersionMatch port).versionMatches then (⟨true, none⟩, log)
    else
      let log := log ++ [DepCall.httpShutdown port]
      let t := deps.getPlatformTimeout 15000
      let log := log ++ [DepCall.waitForPortFree port t]
      if deps.waitForPortFree port t then
        portPhase port scriptPath deps (log ++ [DepCall.removePidFile])
      else (⟨false, some ("Port did not free after version mismatch restart")⟩, log)
  else portPhase port scriptPath deps log

/-- The dependency calls C4 says must not happen on the already-healthy path:
the state-mutating ones. -/
def isMutatingDepCall : DepCall → Bool
  | DepCall.spawnDaemon _ _ => true
  | DepCall.writePidFile _ _ => true
  | DepCall.httpShutdown _ => true
  | DepCall.waitForPortFree _ _ => true
  | DepCall.removePidFile => true
  | _ => false

/-- C4: when the initial 1 s health probe succeeds and the version check
reports a match, `ensureWorkerDaemon` returns `{ready: true}` and performs no
mutating dependency call: no `spawnDaemon`, `writePidFile`, `httpShutdown`,
`waitForPortFree` or `removePidFile` appears in the call log. -/
theorem c4_ensure_healthy_no_mutations (port : Nat) (scriptPath : String) (deps : WorkerDeps)
    (hH : deps.waitForHealth port 1000 = true)
    (hV : (deps.checkVersionMatch port).versionMatches = true) :
    (ensureWorkerDaemon port scriptPath deps).1 = ⟨true, none⟩
      ∧ ∀ c ∈ (ensureWorkerDaemon port scriptPath deps).2, isMutatingDepCall c = false := by
  unfold ensureWorkerDaemon
  rw [if_pos hH, if_pos hV]
  refine ⟨rfl, ?_⟩
  intro c hc
  rcases List.mem_cons.mp hc with h1 | h2
  · rw [h1]; rfl
  · rcases List.mem_singleton.mp (by simpa using h2) with h3
    rw [h3]; rfl

/-- Dependency record for the already-healthy-matching-version situation of
the unit tests: health probe true, version match true. -/
def healthyDeps : WorkerDeps where
  waitForHealth := fun _ _ => true
  checkVersionMatch := fun _ => ⟨true, "1.0.0", some ("1.0.0")⟩
  httpShutdown := fun _ => true
  waitForPortFree := fun _ _ => true
  isPortInUse := fun _ => false
  spawnDaemon := fun _ _ => some 12345
  getPlatformTimeout := fun ms => ms

theorem c4_witness :
    (ensureWorkerDaemon 41777 ("/fake/worker-service.js") healthyDeps).1 = ⟨true, none⟩
      ∧ ∀ c ∈ (ensureWorkerDaemon 41777 ("/fake/worker-service.js") healthyDeps).2,
        isMutatingDepCall c = false :=
  c4_ensure_healthy_no_mutations 41777 ("/fake/worker-service.js") healthyDeps rfl rfl

/-- Dependency record for the cold-start-failure situation of the unit tests:
nothing is healthy, the port is free, and `spawnDaemon` returns no pid. -/
def coldFailDeps : WorkerDeps where
  waitForHealth := fun _ _ => false
  checkVersionMatch := fun _ => ⟨true, "1.0.0", some ("1.0.0")⟩
  httpShutdown := fun _ => true
  waitForPortFree := fun _ _ => true
  isPortInUse := fun _ => false
  spawnDaemon := fun _ _ => none
  getPlatformTimeout := fun ms => ms

/-- C6 counterexample: when `spawnDaemon` returns no pid during cold start,
the error string the code returns is "Failed to spawn worker daemon"
(capital F), not the claimed "failed to spawn worker daemon"; the claimed
result value therefore does not match the computed one. -/
theorem c6_counterexample :
    (ensureWorkerDaemon 41777 ("/fake/worker-service.js") coldFailDeps).1.error
      ≠ some ("failed to spawn worker daemon") := by
  decide

/-- C6 (amended): if the initial health probe fails, the port is not in use,
and `spawnDaemon` returns no pid, `ensureWorkerDaemon` returns
`{ready: false, error: "Failed to spawn worker daemon"}` (capital F, as in the
source and its unit test) and `writePidFile` is never called. -/
theorem c6_cold_start_spawn_failure (port : Nat) (scriptPath : String) (deps : WorkerDeps)
    (hH : deps.waitForHealth port 1000 = false)
    (hP : deps.isPortInUse port = false)
    (hS : deps.spawnDaemon scriptPath port = none) :
    (ensureWorkerDaemon port scriptPath deps).1
        = ⟨false, some ("Failed to spawn worker daemon")⟩
      ∧ ∀ pid p, DepCall.writePidFile pid p ∉ (ensureWorkerDaemon port scriptPath deps).2 := by
  unfold ensureWorkerDaemon portPhase coldStartPhase
  rw [if_neg (by simp [hH]), if_neg (by simp [hP]), hS]
  refine ⟨rfl, ?_⟩
  intro pid p hmem
  simp at hmem

theorem c6_witness :
    (ensureWorkerDaemon 41777 ("/fake/worker-service.js") coldFailDeps).1
        = ⟨false, some ("Failed to spawn worker daemon")⟩
      ∧ ∀ pid p, DepCall.writePidFile pid p
          ∉ (ensureWorkerDaemon 41777 ("/fake/worker-service.js") coldFailDeps).2 :=
  c6_cold_start_spawn_failure 41777 ("/fake/worker-service.js") coldFailDeps rfl rfl rfl

/-! ## Retention scheduler (`PaginationHelper.ts`, RetentionScheduler section)

The module state is the pair of handles `startupTimeout` / `retentionInterval`
plus the runtime's table of live timers, modelled as a list of timer ids.
`startRetentionScheduler` first calls `stopRetentionScheduler`, then schedules
the 30 s startup timeout; when that timer fires its callback schedules the
daily interval (the fired timeout handle stays in the module variable, as in
the source, where `clearTimeout` on a fired handle is a no-op). -/

structure SchedulerState where
  nextTimerId : Nat
  pending : List Nat
  startupTimeout : Option Nat
  retentionInterval : Option Nat
deriving DecidableEq, Repr

/-- Cancel a timer: `clearTimeout` / `clearInterval`, a no-op when the timer
already fired or never existed. -/
def clearTimer (s : SchedulerState) (t : Nat) : SchedulerState :=
  { s with pending := s.pending.filter (fun x => x ≠ t) }

/-- Allocate and schedule a fresh timer, returning its id. -/
def scheduleTimer (s : SchedulerState) : SchedulerState × Nat :=
  ({ s with nextTimerId := s.nextTimerId + 1, pending := s.nextTimerId :: s.pending },
    s.nextTimerId)

def stopRetentionScheduler (s : SchedulerState) : SchedulerState :=
  let s1 :=
    match s.startupTimeout with
    | some t => { clearTimer s t with startupTimeout := none }
    | none => s
  match s1.retentionInterval with
  | some t => { clearTimer s1 t with retentionInterval := none }
  | none => s1

def startRetentionScheduler (s : SchedulerState) : SchedulerState :=
  let s1 := stopRetentionScheduler s
  let p := scheduleTimer s1
  { p.1 with startupTimeout := some p.2 }

/-- The startup timeout fires: the timer leaves the pending table and its
callback schedules the daily `setInterval` timer. -/
def fireStartupTimeout (s : SchedulerState) : SchedulerState :=
  match s.startupTimeout with
  | none => s
  | some t =>
    let s1 := clearTimer s t
    let p := scheduleTimer s1
    { p.1 with retentionInterval := some p.2 }

/-- C8: calling `startRetentionScheduler` twice cancels every timer scheduled
by the first call: the first call's startup timeout is not pending after the
second call, and if the first instance had already started (its startup
timeout fired, scheduling the daily interval) both its timers are gone; and
`stopRetentionScheduler` on a state with no scheduler running changes
nothing. -/
theorem c8_double_start_cancels_timers (s0 sIdle : SchedulerState)
    (h1 : sIdle.startupTimeout = none) (h2 : sIdle.retentionInterval = none) :
    (s0.nextTimerId ∉ (startRetentionScheduler (startRetentionScheduler s0)).pending)
      ∧ (s0.nextTimerId
            ∉ (startRetentionScheduler (fireStartupTimeout (startRetentionScheduler s0))).pending
          ∧ s0.nextTimerId + 1
            ∉ (startRetentionScheduler (fireStartupTimeout (startRetentionScheduler s0))).pending)
      ∧ stopRetentionScheduler sIdle = sIdle := by
  obtain ⟨n, p, st, ri⟩ := s0
  refine ⟨?_, ⟨?_, ?_⟩, ?_⟩
  · cases st <;> cases ri <;>
      simp [startRetentionScheduler, stopRetentionScheduler, clearTimer, scheduleTimer,
        fireStartupTimeout, List.mem_filter]
  · cases st <;> cases ri <;>
      simp [startRetentionScheduler, stopRetentionScheduler, clearTimer, scheduleTimer,
        fireStartupTimeout, List.mem_filter] <;> omega
  · cases st <;> cases ri <;>
      simp [startRetentionScheduler, stopRetentionScheduler, clearTimer, scheduleTimer,
        fireStartupTimeout, List.mem_filter]
  · simp [stopRetentionScheduler, h1, h2]

theorem c8_witness :
    (let s0 : SchedulerState := ⟨10, [3], none, some 3⟩
     (s0.nextTimerId ∉ (startRetentionScheduler (startRetentionScheduler s0)).pending)
      ∧ (s0.nextTimerId
            ∉ (startRetentionScheduler (fireStartupTimeout (startRetentionScheduler s0))).pending
          ∧ s0.nextTimerId + 1
            ∉ (startRetentionScheduler (fireStartupTimeout (startRetentionScheduler s0))).pending)
      ∧ stopRetentionScheduler ⟨5, [], none, none⟩ = ⟨5, [], none, none⟩) :=
  c8_double_start_cancels_timers ⟨10, [3], none, some 3⟩ ⟨5, [], none, none⟩ rfl rfl

/-! ## Database-open error handling (`ContextBuilder.ts`)

`new SessionStore()` is an external effect; its outcome is an input to the
model.  `initializeDatabase` catches the construction error: on
`ERR_DLOPEN_FAILED` it attempts to unlink the install-version marker file and
returns null; any other error is rethrown.  `generateContext` returns the
empty string when `initializeDatabase` returned null; otherwise it proceeds
with the query/render pipeline, whose outcome is abstracted as the `rest`
argument (it is irrelevant to the error path). -/

inductive DbOpenResult where
  | opened
  | openError (code : String)
deriving DecidableEq, Repr

/-- Result of `initializeDatabase`: either the (re)thrown error code, or a
pair of the optional store handle and whether the marker-file unlink was
attempted. -/
def initializeDatabase (r : DbOpenResult) : Except String (Option Unit × Bool) :=
  match r with
  | DbOpenResult.opened => Except.ok (some (), false)
  | DbOpenResult.openError code =>
    if code = "ERR_DLOPEN_FAILED" then Except.ok (none, true) else Except.error code

structure GenerateContextResult where
  output : String
  markerUnlinkAttempted : Bool
  renderedEmptyState : Bool
deriving DecidableEq, Repr

/-- The entry point `generateContext`, instrumented with the marker-unlink
and empty-state-render effects.  `rest` stands for the result of the
data-dependent tail of the function (queries, empty-state check, rendering),
which runs only when the store opened. -/
def generateContext (r : DbOpenResult) (rest : GenerateContextResult) :
    Except String GenerateContextResult :=
  match initializeDatabase r with
  | Except.error code => Except.error code
  | Except.ok (none, unlinked) =>
    Except.ok ⟨"", unlinked, false⟩
  | Except.ok (some _, unlinked) =>
    Except.ok { rest with markerUnlinkAttempted := unlinked }

/-- C9: if opening the store fails with `ERR_DLOPEN_FAILED`, `generateContext`
returns the empty string — having attempted to remove the install-version
marker and without rendering the empty-state template and without an error —
whatever the rest of the pipeline would have produced; any other
database-open error propagates unchanged. -/
theorem c9_dlopen_failure_empty_output (rest : GenerateContextResult) (code : String)
    (hc : code ≠ "ERR_DLOPEN_FAILED") :
    generateContext (DbOpenResult.openError ("ERR_DLOPEN_FAILED")) rest
        = Except.ok ⟨"", true, false⟩
      ∧ generateContext (DbOpenResult.openError code) rest = Except.error code := by
  constructor
  · rfl
  · simp [generateContext, initializeDatabase, hc]

theorem c9_witness :
    generateContext (DbOpenResult.openError ("ERR_DLOPEN_FAILED")) ⟨"full output", false, true⟩
        = Except.ok ⟨"", true, false⟩
      ∧ generateContext (DbOpenResult.openError ("SQLITE_CANTOPEN"))
          ⟨"full output", false, true⟩
        = Except.error ("SQLITE_CANTOPEN") :=
  c9_dlopen_failure_empty_output ⟨"full output", false, true⟩ ("SQLITE_CANTOPEN") (by decide)

/-! ## Plan association store (`plans/store.ts`)

`associatePlan` runs an `INSERT ... ON CONFLICT(session_db_id) DO UPDATE SET
plan_path, plan_status, updated_at = excluded…` — note that `created_at` is
not in the update list, so it keeps the value from the conflicting row. -/

def associatePlan (tbl : List SessionPlanRow) (sessionDbId : Nat)
    (planPath status now : String) : List SessionPlanRow :=
  if tbl.any (fun r => r.session_db_id == sessionDbId) then
    tbl.map (fun r =>
      if r.session_db_id == sessionDbId then
        { r with plan_path := planPath, plan_status := status, updated_at := now }
      else r)
  else tbl ++ [⟨sessionDbId, planPath, status, now, now⟩]

def getPlanForSession (tbl : List SessionPlanRow) (sessionDbId : Nat) :
    Option SessionPlanRow :=
  tbl.find? (fun r => r.session_db_id == sessionDbId)

theorem associatePlan_keys_nodup (tbl : List SessionPlanRow) (sessionDbId : Nat)
    (planPath status now : String)
    (h : (tbl.map SessionPlanRow.session_db_id).Nodup) :
    ((associatePlan tbl sessionDbId planPath status now).map
      SessionPlanRow.session_db_id).Nodup := by
  unfold associatePlan
  by_cases hc : tbl.any (fun r => r.session_db_id == sessionDbId) = true
  · rw [if_pos hc]
    have hkeys : ((tbl.map (fun r =>
        if r.session_db_id == sessionDbId then
          { r with plan_path := planPath, plan_status := status, updated_at := now }
        else r)).map SessionPlanRow.session_db_id) = tbl.map SessionPlanRow.session_db_id := by
      rw [List.map_map]
      refine List.map_congr_left ?_
      intro r _
      by_cases hr : r.session_db_id = sessionDbId <;> simp [hr]
    rw [hkeys]
    exact h
  · rw [if_neg hc]
    rw [List.map_append]
    refine List.nodup_append.mpr ⟨h, by simp, ?_⟩
    intro k hk
    simp only [List.map_cons, List.map_nil, List.mem_singleton]
    intro hk2
    rcases List.mem_map.mp hk with ⟨r, hr, hrk⟩
    have : tbl.any (fun r => r.session_db_id == sessionDbId) = true :=
      List.any_eq_true.mpr ⟨r, hr, by simp [hrk, hk2]⟩
    exact hc this

/-- C10: `associatePlan` preserves the at-most-one-row-per-`session_db_id`
invariant of `session_plans`, and repeating it for the same session
overwrites `plan_path`, `plan_status` and `updated_at` while the row keeps
the `created_at` written by the first association. -/
theorem c10_associatePlan_upsert (tbl : List SessionPlanRow) (sessionDbId : Nat)
    (p1 s1 n1 p2 s2 n2 : String)
    (hkeys : (tbl.map SessionPlanRow.session_db_id).Nodup)
    (hfresh : getPlanForSession tbl sessionDbId = none) :
    (∀ sid p s n,
        ((associatePlan tbl sid p s n).map SessionPlanRow.session_db_id).Nodup)
      ∧ getPlanForSession
          (associatePlan (associatePlan tbl sessionDbId p1 s1 n1) sessionDbId p2 s2 n2)
          sessionDbId
        = some ⟨sessionDbId, p2, s2, n1, n2⟩ := by
  refine ⟨fun sid p s n => associatePlan_keys_nodup tbl sid p s n hkeys, ?_⟩
  unfold getPlanForSession at hfresh
  have hnone : ∀ r ∈ tbl, ¬ (r.session_db_id == sessionDbId) = true :=
    List.find?_eq_none.mp hfresh
  have hany1 : (tbl.any fun r => r.session_db_id == sessionDbId) = false := by
    simp only [List.any_eq_false]
    exact hnone
  have h1 : associatePlan tbl sessionDbId p1 s1 n1
      = tbl ++ [⟨sessionDbId, p1, s1, n1, n1⟩] := by
    unfold associatePlan
    rw [hany1]
    simp
  rw [h1]
  unfold associatePlan
  have hany2 : ((tbl ++ [(⟨sessionDbId, p1, s1, n1, n1⟩ : SessionPlanRow)]).any
      fun r => r.session_db_id == sessionDbId) = true := by
    simp [List.any_append]
  rw [if_pos hany2]
  unfold getPlanForSession
  rw [List.map_append, List.find?_append]
  have hmap1 : (tbl.map fun r =>
      if r.session_db_id == sessionDbId then
        { r with plan_path := p2, plan_status := s2, updated_at := n2 }
      else r) = tbl := by
    have hcongr : ∀ r ∈ tbl, (if r.session_db_id == sessionDbId then
        { r with plan_path := p2, plan_status := s2, updated_at := n2 }
      else r) = r := by
      intro r hr
      rw [if_neg (hnone r hr)]
    rw [List.map_congr_left hcongr, List.map_id']
  rw [hmap1, hfresh]
  simp

theorem c10_witness :
    (∀ sid p s n,
        ((associatePlan [] sid p s n).map SessionPlanRow.session_db_id).Nodup)
      ∧ getPlanForSession
          (associatePlan
            (associatePlan [] 1 ("docs/plans/first.md") ("PENDING") ("t1"))
            1 ("docs/plans/second.md") ("COMPLETE") ("t2"))
          1
        = some ⟨1, "docs/plans/second.md", "COMPLETE", "t1", "t2"⟩ :=
  c10_associatePlan_upsert [] 1 ("docs/plans/first.md") ("PENDING") ("t1")
    ("docs/plans/second.md") ("COMPLETE") ("t2") (by decide) (by decide)

/-! ## Plan file routes (`PlanRoutes` in `PaginationHelper.ts` part)

`handleGetPlanContent` and `handleDeletePlan` resolve the `path` query
parameter against the project root with Node's `path.resolve`, and reject
with 403 unless the resolved path starts with the resolved
`<projectRoot>/docs/plans` directory and ends in `.md`.

POSIX path resolution is modelled over character lists (Lean's `String`
primitives do not reduce in the kernel; `String.data` / `String.mk` do):
split on `/`, drop empty and `.` segments, let `..` pop the last segment
(staying at the root), and rejoin.  `strStartsWith` / `strEndsWith` model
JavaScript's `String.prototype.startsWith` / `endsWith`. -/

def splitOnChar (sep : Char) : List Char → List (List Char)
  | [] => [[]]
  | c :: cs =>
    match splitOnChar sep cs with
    | [] => if c = sep then [[], []] else [[c]]
    | g :: gs => if c = sep then [] :: g :: gs else (c :: g) :: gs

def charsStartsWith : List Char → List Char → Bool
  | _, [] => true
  | [], _ :: _ => false
  | a :: as, b :: bs => a = b && charsStartsWith as bs

def strStartsWith (s p : String) : Bool :=
  charsStartsWith s.data p.data

def strEndsWith (s p : String) : Bool :=
  charsStartsWith s.data.reverse p.data.reverse

/-- POSIX normalisation of path segments: `""` and `"."` vanish, `".."` pops
the previous segment (and keeps the root at the root). -/
def normSegs (segs : List (List Char)) : List (List Char) :=
  segs.foldl
    (fun acc seg =>
      if seg = [] ∨ seg = ['.'] then acc
      else if seg = ['.', '.'] then acc.dropLast
      else acc ++ [seg]) []

/-- Node's `path.resolve(base, p)` for POSIX paths with an absolute `base`:
an absolute `p` is normalised on its own, otherwise `p` is joined onto
`base` and the result normalised. -/
def resolvePath (base p : String) : String :=
  let joined := if charsStartsWith p.data ['/'] then p.data else base.data ++ ('/' :: p.data)
  String.mk ('/' :: List.intercalate ['/'] (normSegs (splitOnChar '/' joined)))

structure PlanRouteResult where
  status : Nat
  readPath : Option String
  deletedPath : Option String
deriving DecidableEq, Repr

/-- The `GET /api/plan/content` handler for a request that carries a `path`
query parameter; `fsFiles` is the set of files that exist. -/
def handleGetPlanContent (projectRoot requestedPath : String) (fsFiles : List String) :
    PlanRouteResult :=
  let plansDir := resolvePath projectRoot ("docs/plans")
  let resolved := resolvePath projectRoot requestedPath
  if !(strStartsWith resolved plansDir) || !(strEndsWith resolved (".md")) then
    ⟨403, none, none⟩
  else if !(fsFiles.contains resolved) then ⟨404, none, none⟩
  else ⟨200, some resolved, none⟩

/-- The `DELETE /api/plan` handler for a request that carries a `path` query
parameter. -/
def handleDeletePlan (projectRoot requestedPath : String) (fsFiles : List String) :
    PlanRouteResult :=
  let plansDir := resolvePath projectRoot ("docs/plans")
  let resolved := resolvePath projectRoot requestedPath
  if !(strStartsWith resolved plansDir) || !(strEndsWith resolved (".md")) then
    ⟨403, none, none⟩
  else if !(fsFiles.contains resolved) then ⟨404, none, none⟩
  else ⟨200, none, some resolved⟩

/-- The claim's notion of acceptability: the resolved path is a strict
descendant of `<projectRoot>/docs/plans/` (note the trailing separator). -/
def isDescendantOfPlansDir (projectRoot requestedPath : String) : Bool :=
  strStartsWith (resolvePath projectRoot requestedPath)
    (resolvePath projectRoot ("docs/plans") ++ "/")

/-- C2 counterexample: `docs/plansEvil/x.md` resolves to
`/root/docs/plansEvil/x.md`, which is not a descendant of
`/root/docs/plans/`, yet both handlers accept it (the guard is a plain
string-prefix check against `/root/docs/plans` with no trailing separator):
the GET handler reads the file and the DELETE handler deletes it, both with
status 200 instead of the claimed 403. -/
theorem c2_counterexample :
    isDescendantOfPlansDir ("/root") ("docs/plansEvil/x.md") = false
      ∧ handleGetPlanContent ("/root") ("docs/plansEvil/x.md")
          [("/root/docs/plansEvil/x.md")]
        = ⟨200, some ("/root/docs/plansEvil/x.md"), none⟩
      ∧ handleDeletePlan ("/root") ("docs/plansEvil/x.md")
          [("/root/docs/plansEvil/x.md")]
        = ⟨200, none, some ("/root/docs/plansEvil/x.md")⟩ := by
  decide

/-- C2 (amended): both plan file routes respond 403 — reading and deleting
nothing — whenever the resolved path fails the source's actual guard: a
string-prefix comparison against the resolved `<projectRoot>/docs/plans`
(without a trailing separator) together with the `.md` suffix check.  Every
path outside `docs/plans/` that is not a sibling whose name extends
`plans` (such as `docs/plansEvil/…` or `docs/plans.md`) is still rejected;
those prefix-sharing siblings are accepted by the code, which is why the
claim's "descendant of docs/plans/" phrasing does not hold. -/
theorem c2_plan_route_guard (projectRoot requestedPath : String) (fsFiles : List String)
    (h : (strStartsWith (resolvePath projectRoot requestedPath)
            (resolvePath projectRoot ("docs/plans"))
          && strEndsWith (resolvePath projectRoot requestedPath) (".md")) = false) :
    handleGetPlanContent projectRoot requestedPath fsFiles = ⟨403, none, none⟩
      ∧ handleDeletePlan projectRoot requestedPath fsFiles = ⟨403, none, none⟩ := by
  unfold handleGetPlanContent handleDeletePlan
  cases hs : strStartsWith (resolvePath projectRoot requestedPath)
      (resolvePath projectRoot ("docs/plans")) <;>
    cases he : strEndsWith (resolvePath projectRoot requestedPath) (".md") <;>
      rw [hs, he] at h <;> simp_all

theorem c2_witness :
    handleGetPlanContent ("/root") ("../../etc/passwd") [("/etc/passwd")]
        = ⟨403, none, none⟩
      ∧ handleDeletePlan ("/root") ("../../etc/passwd") [("/etc/passwd")]
        = ⟨403, none, none⟩ :=
  c2_plan_route_guard ("/root") ("../../etc/passwd") [("/etc/passwd")] (by decide)
